import Mathlib

/-
Verification of the ultimate-strength analysis core of the
concrete-properties repository (concreteproperties/concrete_section.py and
src/concreteproperties/design_codes/aci318.py), shallowly embedded over ℚ.

Machine floats are modelled by exact rationals; Python exceptions by an
explicit result type `Res`.  The geometry, meshing and material stress-strain
collaborators (sectionproperties, concreteproperties.utils,
concreteproperties.analysis_section, concreteproperties.stress_strain_profile)
are not part of the analysed sources; they are abstracted as a record of
unconstrained functions (`Externals`), so every theorem below is quantified
over all possible behaviours of those collaborators.
-/

namespace ConcreteProps

/-- Result of a Python call: a returned value or a raised exception. -/
inductive Res (ε : Type) (α : Type) where
  | ok (a : α)
  | err (e : ε)
deriving DecidableEq

/-- Exceptions that concrete_section.py can raise, one constructor per raise
site (plus `invalidSection`, an error class named by the spec only, so that
its absence from the code is statable). -/
inductive Err where
  /-- ValueError raised by the constructor when a material kind is missing. -/
  | missingMaterial
  /-- ValueError raised by calculate_section_actions when d_n is not positive. -/
  | dnNotPositive
  /-- ValueError raised by calculate_section_actions when d_n exceeds d_t. -/
  | dnBeyondDt
  /-- NameError: a variable read before assignment. -/
  | nameError
  /-- ZeroDivisionError from a float division by zero. -/
  | zeroDivision
  /-- IndexError from indexing an empty list. -/
  | indexError
  /-- InvalidSectionError: named by the spec, never raised by the code. -/
  | invalidSection
deriving DecidableEq

/-- Neutral-axis-validity errors: the two ValueError raise sites guarding d_n
in calculate_section_actions. -/
def Err.isNeutralAxis : Err → Bool
  | Err.dnNotPositive => true
  | Err.dnBeyondDt => true
  | _ => false

/-- The raised exception of a result, if any. -/
def errOf {ε α : Type} : Res ε α → Option ε
  | Res.ok _ => none
  | Res.err e => some e

/-- A concrete region: geometry data (area, centroid), the scalar constants of
its Concrete material, the unique strain values of the material's stress-strain
profile, the profile's ultimate strain and an abstract handle (`pieces`) that
the geometry splitter operates on. -/
structure ConcGeom where
  area : ℚ
  cx : ℚ
  cy : ℚ
  elastic_modulus : ℚ
  density : ℚ
  alpha_1 : ℚ
  compressive_strength : ℚ
  uniqueStrains : List ℚ
  ultimateStrain : ℚ
  pieces : List ℕ
deriving DecidableEq

/-- A steel region: geometry data, the scalar constants of its Steel material
and an abstract handle for its stress-strain profile. -/
structure SteelGeom where
  area : ℚ
  cx : ℚ
  cy : ℚ
  elastic_modulus : ℚ
  density : ℚ
  yield_strength : ℚ
  profile : ℕ
deriving DecidableEq

/-- A region of the input compound geometry, tagged by its material class
(isinstance checks in the constructor); `other` covers materials that are
neither Concrete nor Steel. -/
inductive Material where
  | concrete (g : ConcGeom)
  | steel (g : SteelGeom)
  | other
deriving DecidableEq

/-- The compound geometry handed to the constructor: regions plus the data the
class reads from the compound object itself (points, perimeter). -/
structure GeomInput where
  geoms : List Material
  points : List (ℚ × ℚ)
  perimeter : ℚ
deriving DecidableEq

/-- The section after sorting: concrete regions, steel regions and the
compound geometry data. -/
structure Sect where
  points : List (ℚ × ℚ)
  perimeter : ℚ
  concs : List ConcGeom
  steels : List SteelGeom
deriving DecidableEq

/-- The ConcreteProperties dataclass of concrete_section.py, field for field
(fields never written stay at their initial 0). -/
structure ConcreteProperties where
  total_area : ℚ
  concrete_area : ℚ
  steel_area : ℚ
  e_a : ℚ
  mass : ℚ
  perimeter : ℚ
  e_qx : ℚ
  e_qy : ℚ
  cx : ℚ
  cy : ℚ
  e_ixx_g : ℚ
  e_iyy_g : ℚ
  e_ixy_g : ℚ
  e_ixx_c : ℚ
  e_iyy_c : ℚ
  e_ixy_c : ℚ
  e_i11_c : ℚ
  e_i22_c : ℚ
  phi : ℚ
  zxx_plus : ℚ
  zxx_minus : ℚ
  zyy_plus : ℚ
  zyy_minus : ℚ
  z11_plus : ℚ
  z11_minus : ℚ
  z22_plus : ℚ
  z22_minus : ℚ
  squash_load : ℚ
  tensile_load : ℚ
  axial_pc_x : ℚ
  axial_pc_y : ℚ
  conc_ultimate_strain : ℚ
deriving DecidableEq

/-- The all-zero initial ConcreteProperties record (every dataclass field
defaults to 0). -/
def initProps : ConcreteProperties :=
  ⟨0, 0, 0, 0, 0, 0, 0, 0, 0, 0, 0, 0, 0, 0, 0, 0, 0, 0, 0, 0, 0, 0, 0, 0, 0,
    0, 0, 0, 0, 0, 0, 0⟩

/-- Modelled from the spec: the external collaborators of the analysis core
(sectionproperties geometry and coordinate transforms, concreteproperties
utils, the analysis-section fibre integrator and the material stress-strain
profiles), none of which are among the analysed source files.  Spec sections
4.2-4.4 describe them; here they are fully abstract functions, so theorems
quantified over an `Externals` hold for every behaviour of the collaborators.
The degree conversion theta * 180 / pi applied before the coordinate
transforms is absorbed into the abstract transform.  Split geometries are
abstract handles (`List ℕ`). -/
structure Externals where
  /-- utils.calculate_extreme_fibre: points, theta to (extreme fibre, d_t). -/
  extremeFibre : List (ℚ × ℚ) → ℚ → (ℚ × ℚ) × ℚ
  /-- utils.point_on_neutral_axis: extreme fibre, d_n, theta to a point. -/
  pointOnNA : (ℚ × ℚ) → ℚ → ℚ → ℚ × ℚ
  /-- fea.principal_coordinate: theta, x, y to (u, v). -/
  principalCoord : ℚ → ℚ → ℚ → ℚ × ℚ
  /-- fea.global_coordinate: theta, x11, y22 to (x, y). -/
  globalCoord : ℚ → ℚ → ℚ → ℚ × ℚ
  /-- utils.get_point_from_strain: strain, point_na, d_n, theta, ultimate
  strain to a point. -/
  pointFromStrain : ℚ → (ℚ × ℚ) → ℚ → ℚ → ℚ → ℚ × ℚ
  /-- utils.split_section: geometry, point, theta to (top geoms, bot geoms). -/
  splitSection : List ℕ → (ℚ × ℚ) → ℚ → List ℕ × List ℕ
  /-- AnalysisSection.ultimate_stress_analysis on one split geometry:
  piece, point_na, d_n, theta, ultimate strain, pc_local to (n, mv). -/
  ultStress : ℕ → (ℚ × ℚ) → ℚ → ℚ → ℚ → ℚ → ℚ × ℚ
  /-- utils.get_strain: point, point_na, d_n, theta, ultimate strain. -/
  getStrain : (ℚ × ℚ) → (ℚ × ℚ) → ℚ → ℚ → ℚ → ℚ
  /-- steel stress_strain_profile.get_stress for a steel region. -/
  steelStress : SteelGeom → ℚ → ℚ
  /-- the order-2 AnalysisSection elements of a concrete region: per-element
  (e_ixx_g, e_iyy_g, e_ixy_g). -/
  secondMoments : ConcGeom → List (ℚ × ℚ × ℚ)

/-- The constructor's sorting loop: isinstance(material, Concrete) and
isinstance(material, Steel) sort the regions into two lists. -/
def sortGeoms : List Material → List ConcGeom × List SteelGeom
  | [] => ([], [])
  | Material.concrete g :: rest =>
      let s := sortGeoms rest
      (g :: s.1, s.2)
  | Material.steel g :: rest =>
      let s := sortGeoms rest
      (s.1, g :: s.2)
  | Material.other :: rest => sortGeoms rest

/-- The concrete loop of calculate_gross_area_properties: area, axial
rigidity, mass and first moments accumulate over the concrete regions. -/
def concAreaLoop : List ConcGeom → ConcreteProperties → ConcreteProperties
  | [], p => p
  | g :: rest, p =>
      concAreaLoop rest
        { p with
          concrete_area := p.concrete_area + g.area
          e_a := p.e_a + g.area * g.elastic_modulus
          mass := p.mass + g.area * g.density
          e_qx := p.e_qx + g.area * g.elastic_modulus * g.cy
          e_qy := p.e_qy + g.area * g.elastic_modulus * g.cx }

/-- The steel loop of calculate_gross_area_properties. -/
def steelAreaLoop : List SteelGeom → ConcreteProperties → ConcreteProperties
  | [], p => p
  | g :: rest, p =>
      steelAreaLoop rest
        { p with
          steel_area := p.steel_area + g.area
          e_a := p.e_a + g.area * g.elastic_modulus
          mass := p.mass + g.area * g.density
          e_qx := p.e_qx + g.area * g.elastic_modulus * g.cy
          e_qy := p.e_qy + g.area * g.elastic_modulus * g.cx }

/-- The second-moments loop of calculate_gross_area_properties: order-2
element contributions of each concrete region accumulate into the e_i**_g
fields. -/
def secondMomLoop (E : Externals) : List ConcGeom → ConcreteProperties → ConcreteProperties
  | [], p => p
  | g :: rest, p =>
      secondMomLoop E rest
        ((E.secondMoments g).foldl
          (fun q t =>
            { q with
              e_ixx_g := q.e_ixx_g + t.1
              e_iyy_g := q.e_iyy_g + t.2.1
              e_ixy_g := q.e_ixy_g + t.2.2 })
          p)

/-- calculate_gross_area_properties: loops, totals, perimeter, centroids
(a Python float division by a zero e_a raises ZeroDivisionError), second
moments.  The rich pprint call is presentation only and is not modelled. -/
def calculate_gross_area_properties (E : Externals) (sec : Sect)
    (p0 : ConcreteProperties) : Res Err ConcreteProperties :=
  let p1 := steelAreaLoop sec.steels (concAreaLoop sec.concs p0)
  let p2 := { p1 with
    total_area := p1.concrete_area + p1.steel_area
    perimeter := sec.perimeter }
  if p2.e_a = 0 then Res.err Err.zeroDivision
  else
    let p3 := { p2 with cx := p2.e_qy / p2.e_a, cy := p2.e_qx / p2.e_a }
    Res.ok (secondMomLoop E sec.concs p3)

/-- The concrete loop of calculate_gross_plastic_properties, accumulating
(squash_load, tensile_load, squash_moment_x, squash_moment_y). -/
def concPlasticLoop : List ConcGeom → ℚ × ℚ × ℚ × ℚ → ℚ × ℚ × ℚ × ℚ
  | [], t => t
  | g :: rest, (sq, tl, smx, smy) =>
      let force_c := g.area * g.alpha_1 * g.compressive_strength
      concPlasticLoop rest (sq + force_c, tl, smx + force_c * g.cx, smy + force_c * g.cy)

/-- The steel loop of calculate_gross_plastic_properties. -/
def steelPlasticLoop : List SteelGeom → ℚ × ℚ × ℚ × ℚ → ℚ × ℚ × ℚ × ℚ
  | [], t => t
  | g :: rest, (sq, tl, smx, smy) =>
      let force_c := g.area * g.yield_strength
      steelPlasticLoop rest (sq + force_c, tl - force_c, smx + force_c * g.cx, smy + force_c * g.cy)

/-- calculate_gross_plastic_properties: the two loops, the stores, the plastic
centroid divisions (a zero squash load raises ZeroDivisionError, unguarded in
the source) and the ultimate strain taken from concrete_geometries[0]
(IndexError when there is none). -/
def calculate_gross_plastic_properties (sec : Sect)
    (p0 : ConcreteProperties) : Res Err ConcreteProperties :=
  let t := steelPlasticLoop sec.steels (concPlasticLoop sec.concs (0, 0, 0, 0))
  let p1 := { p0 with squash_load := t.1, tensile_load := t.2.1 }
  if t.1 = 0 then Res.err Err.zeroDivision
  else
    let p2 := { p1 with axial_pc_x := t.2.2.1 / t.1, axial_pc_y := t.2.2.2 / t.1 }
    match sec.concs.head? with
    | none => Res.err Err.indexError
    | some g => Res.ok { p2 with conc_ultimate_strain := g.ultimateStrain }

/-- The mutable state of a ConcreteSection object: the sorted geometry, the
gross_properties record and the _ult_bend_res side channel (none while the
attribute is not yet set). -/
structure CState where
  sec : Sect
  props : ConcreteProperties
  ultBendRes : Option (ℚ × ℚ × ℚ × ℚ)
deriving DecidableEq

/-- The gross-property phase of the constructor: area properties then plastic
properties, producing the initial object state. -/
def constructGross (E : Externals) (sec : Sect) : Res Err CState :=
  match calculate_gross_area_properties E sec initProps with
  | Res.err e => Res.err e
  | Res.ok p1 =>
      match calculate_gross_plastic_properties sec p1 with
      | Res.err e => Res.err e
      | Res.ok p2 => Res.ok ⟨sec, p2, none⟩

/-- ConcreteSection.__init__: sort regions by material class, raise ValueError
when either kind is missing, then compute and store the gross properties. -/
def concreteSectionInit (E : Externals) (gin : GeomInput) : Res Err CState :=
  let s := sortGeoms gin.geoms
  if s.1.length = 0 ∨ s.2.length = 0 then Res.err Err.missingMaterial
  else constructGross E ⟨gin.points, gin.perimeter, s.1, s.2⟩

/-- get_pc_local: the plastic centroid transformed to neutral-axis-aligned
coordinates. -/
def get_pc_local (E : Externals) (props : ConcreteProperties) (theta : ℚ) : ℚ × ℚ :=
  E.principalCoord theta props.axial_pc_x props.axial_pc_y

/-- strains[1:-1]: the interior points of a stress-strain profile's unique
strain list. -/
def interiorStrains (l : List ℚ) : List ℚ :=
  (l.drop 1).dropLast

/-- The inner split loop of calculate_section_actions for one concrete
region: for each interior strain the current geometry is split, the bottom
geoms accumulate, the top geoms become the current geometry, and the Python
variable top_geoms is (re)assigned.  Arguments: interior strains, current
geometry, accumulated split geoms, current value of top_geoms (none while
unassigned).  Returns the accumulator and top_geoms after the loop. -/
def splitInner (E : Externals) (us : ℚ) (point_na : ℚ × ℚ) (d_n theta : ℚ) :
    List ℚ → List ℕ → List ℕ → Option (List ℕ) → List ℕ × Option (List ℕ)
  | [], _cur, acc, tg => (acc, tg)
  | strain :: rest, cur, acc, tg =>
      let pt := E.pointFromStrain strain point_na d_n theta us
      let tb := E.splitSection cur pt theta
      let _ := tg
      splitInner E us point_na d_n theta rest tb.1 (acc ++ tb.2) (some tb.1)

/-- The outer split loop of calculate_section_actions: per concrete region,
run the inner loop starting from the region's own geometry, then append the
final top geoms — reading the Python variable top_geoms, which raises
NameError when still unassigned and holds the previous region's top geoms
when this region's inner loop ran zero times. -/
def splitRegions (E : Externals) (us : ℚ) (point_na : ℚ × ℚ) (d_n theta : ℚ) :
    List ConcGeom → List ℕ → Option (List ℕ) → Res Err (List ℕ)
  | [], acc, _tg => Res.ok acc
  | g :: rest, acc, tg =>
      let r := splitInner E us point_na d_n theta (interiorStrains g.uniqueStrains) g.pieces acc tg
      match r.2 with
      | none => Res.err Err.nameError
      | some t => splitRegions E us point_na d_n theta rest (r.1 ++ t) (some t)

/-- The concrete-actions loop: ultimate stress analysis of every split
geometry, accumulating (n, mv). -/
def concActions (E : Externals) (point_na : ℚ × ℚ) (d_n theta us pc_v : ℚ) :
    List ℕ → ℚ × ℚ → ℚ × ℚ
  | [], nm => nm
  | p :: rest, (n, mv) =>
      let r := E.ultStress p point_na d_n theta us pc_v
      concActions E point_na d_n theta us pc_v rest (n + r.1, mv + r.2)

/-- The steel-actions loop: strain at the centroid, stress, force, and the
moment arm from the local centroid coordinate to the plastic centroid. -/
def steelActions (E : Externals) (point_na : ℚ × ℚ) (d_n theta us pc_v : ℚ) :
    List SteelGeom → ℚ × ℚ → ℚ × ℚ
  | [], nm => nm
  | sg :: rest, (n, mv) =>
      let strain := E.getStrain (sg.cx, sg.cy) point_na d_n theta us
      let stress := E.steelStress sg strain
      let force := stress * sg.area
      let c_v := (E.principalCoord theta sg.cx sg.cy).2
      steelActions E point_na d_n theta us pc_v rest (n + force, mv + force * (c_v - pc_v))

/-- calculate_section_actions, value part: the extreme fibre, the d_n
validity guards, the split loops, the concrete and steel action loops and the
conversion of mv back to global mx, my.  The result tuple is (n, mx, my, mv);
note the source assigns (my, mx) from global_coordinate. -/
def sectionActionsVal (E : Externals) (sec : Sect) (props : ConcreteProperties)
    (d_n theta : ℚ) : Res Err (ℚ × ℚ × ℚ × ℚ) :=
  let ef := E.extremeFibre sec.points theta
  if d_n ≤ 0 then Res.err Err.dnNotPositive
  else if ef.2 < d_n then Res.err Err.dnBeyondDt
  else
    let point_na := E.pointOnNA ef.1 d_n theta
    let pc_local := get_pc_local E props theta
    match splitRegions E props.conc_ultimate_strain point_na d_n theta sec.concs [] none with
    | Res.err e => Res.err e
    | Res.ok geoms =>
        let nm1 := concActions E point_na d_n theta props.conc_ultimate_strain pc_local.2 geoms (0, 0)
        let nm := steelActions E point_na d_n theta props.conc_ultimate_strain pc_local.2 sec.steels nm1
        let gm := E.globalCoord theta 0 nm.2
        Res.ok (nm.1, gm.2, gm.1, nm.2)

/-- calculate_section_actions on the object state: compute the actions and
store them in the _ult_bend_res side channel before returning them. -/
def calculate_section_actions (E : Externals) (s : CState) (d_n theta : ℚ) :
    Res Err ((ℚ × ℚ × ℚ × ℚ) × CState) :=
  match sectionActionsVal E s.sec s.props d_n theta with
  | Res.err e => Res.err e
  | Res.ok r => Res.ok (r, { s with ultBendRes := some r })

/-- normal_force_convergence: target axial force minus the axial force of the
section actions at (d_n, theta); evaluating it mutates _ult_bend_res. -/
def normal_force_convergence (E : Externals) (s : CState) (d_n theta n : ℚ) :
    Res Err (ℚ × CState) :=
  match calculate_section_actions E s d_n theta with
  | Res.err e => Res.err e
  | Res.ok (r, s1) => Res.ok (n - r.1, s1)

/-- Modelled from the spec: scipy.optimize.brentq is not part of the
repository.  Per spec section 4.5 the solver is a single-shot bracketed
root-find whose returned depth is the one of its final objective evaluation
(the side channel captures exactly that evaluation).  It is modelled as a
solver evaluating the convergence function at an arbitrary nonempty sequence
of depths — the evaluation schedule, passed as an explicit argument — and
returning the last depth of the schedule; theorems quantify over every
schedule. -/
def brentqRun (E : Externals) (theta n : ℚ) :
    CState → ℚ → List ℚ → Res Err (ℚ × CState)
  | s, d, [] =>
      match normal_force_convergence E s d theta n with
      | Res.err e => Res.err e
      | Res.ok (_, s1) => Res.ok (d, s1)
  | s, d, d1 :: rest =>
      match normal_force_convergence E s d theta n with
      | Res.err e => Res.err e
      | Res.ok (_, s1) => brentqRun E theta n s1 d1 rest

/-- ultimate_bending_capacity: reset the _ult_bend_res side channel, run the
root-find over the bracket (the endpoints 1e-6 * d_t and d_t are points of
the schedule in the model), then unpack the side channel next to the
converged depth: (n, mx, my, mv, d_n). -/
def ultimate_bending_capacity (E : Externals) (s : CState) (theta n : ℚ)
    (sched : ℚ × List ℚ) : Res Err ((ℚ × ℚ × ℚ × ℚ × ℚ) × CState) :=
  let s0 := { s with ultBendRes := none }
  match brentqRun E theta n s0 sched.1 sched.2 with
  | Res.err e => Res.err e
  | Res.ok (d_n, s1) =>
      match s1.ultBendRes with
      | some r => Res.ok ((r.1, r.2.1, r.2.2.1, r.2.2.2, d_n), s1)
      | none => Res.err Err.nameError

/-- np.linspace with endpoint=True over ℚ: num evenly spaced samples from
start to stop inclusive. -/
def linspace (start stop : ℚ) (num : ℕ) : List ℚ :=
  if num = 0 then []
  else if num = 1 then [start]
  else (List.range num).map fun i : ℕ => start + (stop - start) * (i : ℚ) / ((num : ℚ) - 1)

/-- The sampling loop of moment_interaction_diagram: for each neutral-axis
depth, calculate the section actions and append the scaled axial force and
scaled resultant moment to the two curves. -/
def sampleCurve (E : Externals) (theta n_scale m_scale : ℚ) :
    CState → List ℚ → List ℚ → List ℚ → Res Err ((List ℚ × List ℚ) × CState)
  | s, [], nC, mC => Res.ok ((nC, mC), s)
  | s, d :: rest, nC, mC =>
      match calculate_section_actions E s d theta with
      | Res.err e => Res.err e
      | Res.ok (r, s1) =>
          sampleCurve E theta n_scale m_scale s1 rest
            (nC ++ [r.1 * n_scale]) (mC ++ [r.2.2.2 * m_scale])

/-- moment_interaction_diagram: scaled squash load first, pure-bending depth
from ultimate_bending_capacity at n = 0, n_points section-action samples
along linspace(d_t, d_nb, n_points), scaled tensile load last.  Plotting and
the progress bar are presentation only and are not modelled. -/
def moment_interaction_diagram (E : Externals) (s : CState) (theta : ℚ)
    (n_points : ℕ) (n_scale m_scale : ℚ) (sched : ℚ × List ℚ) :
    Res Err ((List ℚ × List ℚ) × CState) :=
  let nC0 := [s.props.squash_load * n_scale]
  let mC0 := [(0 : ℚ)]
  let d_t := (E.extremeFibre s.sec.points theta).2
  match ultimate_bending_capacity E s theta 0 sched with
  | Res.err e => Res.err e
  | Res.ok (r5, s1) =>
      match sampleCurve E theta n_scale m_scale s1 (linspace d_t r5.2.2.2.2 n_points) nC0 mC0 with
      | Res.err e => Res.err e
      | Res.ok ((nC, mC), s2) =>
          Res.ok ((nC ++ [s2.props.tensile_load * n_scale], mC ++ [(0 : ℚ)]), s2)

/-- Proof scaffolding: the values the sampling loop of
moment_interaction_diagram produces, as a pure function of the sampled
depths — (n * n_scale, mv * m_scale) per depth. -/
def curveVals (E : Externals) (sec : Sect) (props : ConcreteProperties)
    (theta n_scale m_scale : ℚ) : List ℚ → Res Err (List (ℚ × ℚ))
  | [] => Res.ok []
  | d :: rest =>
      match sectionActionsVal E sec props d theta with
      | Res.err e => Res.err e
      | Res.ok r =>
          match curveVals E sec props theta n_scale m_scale rest with
          | Res.err e => Res.err e
          | Res.ok l => Res.ok ((r.1 * n_scale, r.2.2.2 * m_scale) :: l)

/-
Spec-side closed formulas (spec section 4.1), for comparison with the loops
of calculate_gross_plastic_properties.
-/

/-- Spec formula: squash load = sum over concrete regions of
area * alpha_1 * compressive strength plus sum over steel regions of
area * yield strength. -/
def specSquashLoad (sec : Sect) : ℚ :=
  (sec.concs.map fun g => g.area * g.alpha_1 * g.compressive_strength).sum
    + (sec.steels.map fun g => g.area * g.yield_strength).sum

/-- Spec formula: the steel yield sum; the tensile load is its negation. -/
def specSteelYield (sec : Sect) : ℚ :=
  (sec.steels.map fun g => g.area * g.yield_strength).sum

/-- Spec formula: sum of compressive force times centroid x over all
regions. -/
def specSquashMomX (sec : Sect) : ℚ :=
  (sec.concs.map fun g => g.area * g.alpha_1 * g.compressive_strength * g.cx).sum
    + (sec.steels.map fun g => g.area * g.yield_strength * g.cx).sum

/-- Spec formula: sum of compressive force times centroid y over all
regions. -/
def specSquashMomY (sec : Sect) : ℚ :=
  (sec.concs.map fun g => g.area * g.alpha_1 * g.compressive_strength * g.cy).sum
    + (sec.steels.map fun g => g.area * g.yield_strength * g.cy).sum

/-- The nonnegativity assumptions of a valid section, per input region:
nonnegative area and nonnegative strength constants. -/
def matNonneg : Material → Prop
  | Material.concrete g => 0 ≤ g.area ∧ 0 ≤ g.alpha_1 ∧ 0 ≤ g.compressive_strength
  | Material.steel g => 0 ≤ g.area ∧ 0 ≤ g.yield_strength
  | Material.other => True

instance : DecidablePred matNonneg := fun m => by
  cases m <;> simp only [matNonneg] <;> infer_instance

/-
Concrete sample data used by the witness theorems: a fixed choice of
external collaborators and small sections on which the embedded analysis
runs end to end.
-/

/-- A fixed interpretation of the external collaborators: the extreme-fibre
depth is 1, splitting keeps the whole geometry on the compression side, every
stress integral is zero. -/
def extTriv : Externals :=
  { extremeFibre := fun _ _ => ((0, 0), 1)
    pointOnNA := fun _ _ _ => (0, 0)
    principalCoord := fun _ _ _ => (0, 0)
    globalCoord := fun _ _ _ => (0, 0)
    pointFromStrain := fun _ _ _ _ _ => (0, 0)
    splitSection := fun cur _ _ => (cur, [])
    ultStress := fun _ _ _ _ _ _ => (0, 0)
    getStrain := fun _ _ _ _ _ => 0
    steelStress := fun _ _ => 0
    secondMoments := fun _ => [] }

/-- Sample concrete region: unit area, centroid (3, 4), alpha_1 = 1,
compressive strength 2, a three-point stress-strain profile. -/
def cgW : ConcGeom := ⟨1, 3, 4, 1, 0, 1, 2, [0, 1, 2], 2, [7]⟩

/-- Sample concrete region whose profile has only two unique strains (no
interior breakpoint). -/
def cgB : ConcGeom := ⟨1, 0, 0, 1, 0, 1, 2, [0, 2], 2, [3]⟩

/-- Sample steel region: unit area, centroid (0, 1), yield strength 5. -/
def sgW : SteelGeom := ⟨1, 0, 1, 1, 0, 5, 0⟩

/-- Sample constructor input with one concrete and one steel region. -/
def ginW : GeomInput := ⟨[Material.concrete cgW, Material.steel sgW], [(0, 0)], 10⟩

/-- The sorted section of `ginW`. -/
def sectW : Sect := ⟨[(0, 0)], 10, [cgW], [sgW]⟩

/-- The gross properties of `sectW` under `extTriv`. -/
def propsW : ConcreteProperties :=
  { initProps with
    total_area := 2
    concrete_area := 1
    steel_area := 1
    e_a := 2
    perimeter := 10
    e_qx := 5
    e_qy := 3
    cx := 3/2
    cy := 5/2
    squash_load := 7
    tensile_load := -5
    axial_pc_x := 6/7
    axial_pc_y := 13/7
    conc_ultimate_strain := 2 }

/-- The object state after constructing `ginW` under `extTriv`. -/
def stateW : CState := ⟨sectW, propsW, none⟩

/-- A section whose first concrete region has no interior profile
breakpoint. -/
def sectB : Sect := ⟨[(0, 0)], 0, [cgB], [sgW]⟩

/-- Constructor input whose regions all have zero area: both material kinds
are present, yet construction fails on a zero axial rigidity. -/
def ginZ : GeomInput :=
  ⟨[Material.concrete ⟨0, 0, 0, 1, 0, 1, 2, [0, 1, 2], 2, [7]⟩,
    Material.steel ⟨0, 0, 0, 1, 0, 5, 0⟩], [(0, 0)], 0⟩

/-- A section with a zero squash load: zero-area regions. -/
def sectZ : Sect :=
  ⟨[(0, 0)], 0, [⟨0, 0, 0, 1, 0, 1, 2, [0, 1, 2], 2, [7]⟩], [⟨0, 0, 0, 1, 0, 5, 0⟩]⟩

/-- The output of calculate_gross_plastic_properties on `sectW` from the
all-zero record. -/
def propsPl : ConcreteProperties :=
  { initProps with
    squash_load := 7
    tensile_load := -5
    axial_pc_x := 6/7
    axial_pc_y := 13/7
    conc_ultimate_strain := 2 }

end ConcreteProps

namespace ACI318

/-
Embedding of src/concreteproperties/design_codes/aci318.py.  The float power
operator ** is abstracted as a function argument `rpow` (its exponents here
are 0.5 and 1.5); the name and colour strings are presentation only and are
not modelled.
-/

/-- The ConcreteLinearNoTension service profile, by its constructor
arguments. -/
structure ServiceProfile where
  elastic_modulus : ℚ
  ultimate_strain : ℚ
  compressive_strength : ℚ
deriving DecidableEq

/-- The RectangularStressBlock ultimate profile, by its constructor
arguments. -/
structure UltimateProfile where
  compressive_strength : ℚ
  alpha : ℚ
  gamma : ℚ
  ultimate_strain : ℚ
deriving DecidableEq

/-- The Concrete material object built by create_concrete_material: density
and the two stress-strain profiles plus the flexural tensile strength. -/
structure ConcreteMat where
  density : ℚ
  service : ServiceProfile
  ultimate : UltimateProfile
  flexural_tensile_strength : ℚ
deriving DecidableEq

/-- Exceptions out of the ACI318 methods: Python `raise x` where x is not a
BaseException is itself an error (a TypeError carrying away the object); the
constructed Concrete object is recorded in the error. -/
inductive ACIErr where
  | raisedNonException (c : ConcreteMat)
deriving DecidableEq

/-- calc_beta_1 per ACI 318 Table 22.2.2.4.3 (the final else prints a warning
and returns 0.85). -/
def calc_beta_1 (fpc : ℚ) : ℚ :=
  if 5/2 ≤ fpc ∧ fpc ≤ 4 then 85/100
  else if 4 < fpc ∧ fpc < 8 then 85/100 - 5/100 * (fpc - 4)
  else if 8 ≤ fpc then 65/100
  else 85/100

/-- calc_modulus_of_rupture: 7.5 * lambda * sqrt(fpc * 1000) / 1000. -/
def calc_modulus_of_rupture (rpow : ℚ → ℚ → ℚ) (fpc lambda_agg : ℚ) : ℚ :=
  15/2 * lambda_agg * rpow (fpc * 1000) (1/2) / 1000

/-- calc_concrete_elastic_modulus: 33 * (wc*1000)^1.5 * sqrt(fpc*1000) / 1000. -/
def calc_concrete_elastic_modulus (rpow : ℚ → ℚ → ℚ) (fpc wc : ℚ) : ℚ :=
  33 * rpow (wc * 1000) (3/2) * rpow (fpc * 1000) (1/2) / 1000

/-- create_concrete_material: build the service profile, the ultimate
rectangular stress block, the modulus of rupture and the Concrete object —
then `raise concrete` instead of `return concrete`, so the method always
raises, carrying the constructed object. -/
def create_concrete_material (rpow : ℚ → ℚ → ℚ) (fpc eps_cu wc : ℚ) :
    ConcreteProps.Res ACIErr ConcreteMat :=
  let Ec := calc_concrete_elastic_modulus rpow fpc wc
  let service := ServiceProfile.mk Ec eps_cu (85/100 * fpc)
  let beta_1 := calc_beta_1 fpc
  let ult := UltimateProfile.mk fpc (85/100) beta_1 eps_cu
  let fr := calc_modulus_of_rupture rpow fpc 1
  let concrete := ConcreteMat.mk (wc / 1728) service ult fr
  ConcreteProps.Res.err (ACIErr.raisedNonException concrete)

end ACI318

namespace ConcreteProps

/-- Closed form of the concrete plastic loop: it adds the spec sums to the
accumulator (and leaves the tensile component alone). -/
theorem concPlasticLoop_eq (l : List ConcGeom) (t : ℚ × ℚ × ℚ × ℚ) :
    concPlasticLoop l t =
      (t.1 + (l.map fun g => g.area * g.alpha_1 * g.compressive_strength).sum,
        t.2.1,
        t.2.2.1 + (l.map fun g => g.area * g.alpha_1 * g.compressive_strength * g.cx).sum,
        t.2.2.2 + (l.map fun g => g.area * g.alpha_1 * g.compressive_strength * g.cy).sum) := by
  induction l generalizing t with
  | nil => simp [concPlasticLoop]
  | cons g l ih =>
    obtain ⟨sq, tl, smx, smy⟩ := t
    simp only [concPlasticLoop, ih, List.map_cons, List.sum_cons, Prod.mk.injEq]
    and_intros <;> first | trivial | ring

/-- Closed form of the steel plastic loop: it adds the yield sums to the
accumulator and subtracts the yield sum from the tensile component. -/
theorem steelPlasticLoop_eq (l : List SteelGeom) (t : ℚ × ℚ × ℚ × ℚ) :
    steelPlasticLoop l t =
      (t.1 + (l.map fun g => g.area * g.yield_strength).sum,
        t.2.1 - (l.map fun g => g.area * g.yield_strength).sum,
        t.2.2.1 + (l.map fun g => g.area * g.yield_strength * g.cx).sum,
        t.2.2.2 + (l.map fun g => g.area * g.yield_strength * g.cy).sum) := by
  induction l generalizing t with
  | nil => simp [steelPlasticLoop]
  | cons g l ih =>
    obtain ⟨sq, tl, smx, smy⟩ := t
    simp only [steelPlasticLoop, ih, List.map_cons, List.sum_cons, Prod.mk.injEq]
    and_intros <;> first | trivial | ring

/-- Characterisation of a successful calculate_gross_plastic_properties run:
the stored squash load, tensile load and plastic centroid equal the spec
formulas, and the squash load is nonzero. -/
theorem gross_plastic_spec (sec : Sect) (p0 p' : ConcreteProperties)
    (h : calculate_gross_plastic_properties sec p0 = Res.ok p') :
    p'.squash_load = specSquashLoad sec ∧
      p'.tensile_load = -specSteelYield sec ∧
      p'.axial_pc_x = specSquashMomX sec / specSquashLoad sec ∧
      p'.axial_pc_y = specSquashMomY sec / specSquashLoad sec ∧
      specSquashLoad sec ≠ 0 := by
  simp only [calculate_gross_plastic_properties, concPlasticLoop_eq, steelPlasticLoop_eq,
    zero_add, zero_sub] at h
  split at h
  · cases h
  · rename_i hne
    split at h
    · cases h
    · rename_i g hg
      cases h
      refine ⟨rfl, rfl, ?_, ?_, ?_⟩ <;>
        · simp [specSquashLoad, specSteelYield, specSquashMomX, specSquashMomY] at hne ⊢
          try tauto

/-- C4: the plastic aggregation computes squash_load as the sum over concrete
regions of area * alpha_1 * compressive_strength plus the sum over steel
regions of area * yield_strength; tensile_load as minus the steel yield sum;
and the plastic centroid as (sum of force * centroid coordinate) divided by
the squash load. -/
theorem claim4_plastic_aggregation (sec : Sect) (p0 p' : ConcreteProperties)
    (h : calculate_gross_plastic_properties sec p0 = Res.ok p') :
    p'.squash_load = specSquashLoad sec ∧
      p'.tensile_load = -specSteelYield sec ∧
      p'.axial_pc_x = specSquashMomX sec / p'.squash_load ∧
      p'.axial_pc_y = specSquashMomY sec / p'.squash_load := by
  obtain ⟨h1, h2, h3, h4, _⟩ := gross_plastic_spec sec p0 p' h
  exact ⟨h1, h2, by rw [h1, h3], by rw [h1, h4]⟩

/-- Witness for C4: the aggregation formulas hold on the sample section. -/
theorem claim4_witness :
    propsPl.squash_load = specSquashLoad sectW ∧
      propsPl.tensile_load = -specSteelYield sectW ∧
      propsPl.axial_pc_x = specSquashMomX sectW / propsPl.squash_load ∧
      propsPl.axial_pc_y = specSquashMomY sectW / propsPl.squash_load :=
  claim4_plastic_aggregation sectW initProps propsPl (by with_unfolding_all rfl)

/-- C5 counterexample: on a section whose squash load is zero, the gross
plastic computation fails with the raw division-by-zero error, not with the
InvalidSectionError the claim promises — there is no explicit guard. -/
theorem claim5_counterexample :
    errOf (calculate_gross_plastic_properties sectZ initProps) = some Err.zeroDivision ∧
      Err.zeroDivision ≠ Err.invalidSection :=
  ⟨by with_unfolding_all rfl, by decide⟩

/-- C5 as amended: if the squash load is zero, the plastic centroid division
raises an unguarded ZeroDivisionError (no InvalidSectionError is raised). -/
theorem claim5_zero_squash_raises (sec : Sect) (p0 : ConcreteProperties)
    (h : specSquashLoad sec = 0) :
    calculate_gross_plastic_properties sec p0 = Res.err Err.zeroDivision := by
  simp only [calculate_gross_plastic_properties, concPlasticLoop_eq, steelPlasticLoop_eq,
    zero_add, zero_sub]
  split
  · rfl
  · rename_i hne
    exact absurd (by simpa [specSquashLoad] using h) hne

/-- Witness for C5 (amended): the zero-area sample section has zero squash
load and the computation raises the division error. -/
theorem claim5_witness :
    specSquashLoad sectZ = 0 ∧
      calculate_gross_plastic_properties sectZ initProps = Res.err Err.zeroDivision :=
  ⟨by with_unfolding_all rfl,
    claim5_zero_squash_raises sectZ initProps (by with_unfolding_all rfl)⟩

/-- A region of the concrete output list of the sorting loop comes from a
Concrete-tagged input region. -/
theorem sortGeoms_conc_mem (l : List Material) (g : ConcGeom)
    (hg : g ∈ (sortGeoms l).1) : Material.concrete g ∈ l := by
  induction l with
  | nil => simp [sortGeoms] at hg
  | cons m rest ih =>
    cases m with
    | concrete c =>
      rcases (by simpa [sortGeoms] using hg : g = c ∨ g ∈ (sortGeoms rest).1) with h | h
      · simp [h]
      · exact List.mem_cons_of_mem _ (ih h)
    | steel s => exact List.mem_cons_of_mem _ (ih (by simpa [sortGeoms] using hg))
    | other => exact List.mem_cons_of_mem _ (ih (by simpa [sortGeoms] using hg))

/-- A region of the steel output list of the sorting loop comes from a
Steel-tagged input region. -/
theorem sortGeoms_steel_mem (l : List Material) (g : SteelGeom)
    (hg : g ∈ (sortGeoms l).2) : Material.steel g ∈ l := by
  induction l with
  | nil => simp [sortGeoms] at hg
  | cons m rest ih =>
    cases m with
    | steel s =>
      rcases (by simpa [sortGeoms] using hg : g = s ∨ g ∈ (sortGeoms rest).2) with h | h
      · simp [h]
      · exact List.mem_cons_of_mem _ (ih h)
    | concrete c => exact List.mem_cons_of_mem _ (ih (by simpa [sortGeoms] using hg))
    | other => exact List.mem_cons_of_mem _ (ih (by simpa [sortGeoms] using hg))

/-- The spec squash load is nonnegative for nonnegative areas and strength
constants. -/
theorem specSquashLoad_nonneg (sec : Sect)
    (hc : ∀ g ∈ sec.concs, 0 ≤ g.area ∧ 0 ≤ g.alpha_1 ∧ 0 ≤ g.compressive_strength)
    (hs : ∀ g ∈ sec.steels, 0 ≤ g.area ∧ 0 ≤ g.yield_strength) :
    0 ≤ specSquashLoad sec := by
  refine add_nonneg (List.sum_nonneg ?_) (List.sum_nonneg ?_)
  · intro x hx
    rcases List.mem_map.mp hx with ⟨g, hgm, rfl⟩
    rcases hc g hgm with ⟨h1, h2, h3⟩
    exact mul_nonneg (mul_nonneg h1 h2) h3
  · intro x hx
    rcases List.mem_map.mp hx with ⟨g, hgm, rfl⟩
    rcases hs g hgm with ⟨h1, h2⟩
    exact mul_nonneg h1 h2

/-- The steel yield sum is nonnegative for nonnegative areas and yield
strengths. -/
theorem specSteelYield_nonneg (sec : Sect)
    (hs : ∀ g ∈ sec.steels, 0 ≤ g.area ∧ 0 ≤ g.yield_strength) :
    0 ≤ specSteelYield sec := by
  refine List.sum_nonneg ?_
  intro x hx
  rcases List.mem_map.mp hx with ⟨g, hgm, rfl⟩
  rcases hs g hgm with ⟨h1, h2⟩
  exact mul_nonneg h1 h2

/-- A successful constructGross stores the section and props that come out of
the gross plastic computation on the output of the gross area computation. -/
theorem constructGross_ok (E : Externals) (sec : Sect) (s : CState)
    (h : constructGross E sec = Res.ok s) :
    s.sec = sec ∧ s.ultBendRes = none ∧
      ∃ p1, calculate_gross_area_properties E sec initProps = Res.ok p1 ∧
        calculate_gross_plastic_properties sec p1 = Res.ok s.props := by
  unfold constructGross at h
  split at h
  · cases h
  · rename_i p1 hp1
    split at h
    · cases h
    · rename_i p2 hp2
      cases h
      exact ⟨rfl, rfl, p1, hp1, hp2⟩

/-- The gross area computation only raises the division error. -/
theorem gross_area_err (E : Externals) (sec : Sect) (p0 : ConcreteProperties)
    (e : Err) (h : calculate_gross_area_properties E sec p0 = Res.err e) :
    e = Err.zeroDivision := by
  simp only [calculate_gross_area_properties] at h
  split at h
  · cases h; rfl
  · cases h

/-- The gross plastic computation only raises the division or index error. -/
theorem gross_plastic_err (sec : Sect) (p0 : ConcreteProperties) (e : Err)
    (h : calculate_gross_plastic_properties sec p0 = Res.err e) :
    e = Err.zeroDivision ∨ e = Err.indexError := by
  simp only [calculate_gross_plastic_properties] at h
  split at h
  · cases h; exact Or.inl rfl
  · split at h
    · cases h; exact Or.inr rfl
    · cases h

/-- constructGross never raises the missing-material validation error. -/
theorem constructGross_err (E : Externals) (sec : Sect) (e : Err)
    (h : constructGross E sec = Res.err e) :
    e = Err.zeroDivision ∨ e = Err.indexError := by
  unfold constructGross at h
  split at h
  · rename_i e1 he1
    cases h
    exact Or.inl (gross_area_err E sec initProps _ he1)
  · rename_i p1 hp1
    split at h
    · rename_i e2 he2
      cases h
      exact gross_plastic_err sec p1 _ he2
    · cases h

/-- C8: after a successful construction of a section whose regions all have
nonnegative areas and nonnegative strength constants, the stored gross
properties satisfy tensile_load ≤ 0 ≤ squash_load. -/
theorem claim8_load_signs (E : Externals) (gin : GeomInput) (s : CState)
    (h : concreteSectionInit E gin = Res.ok s)
    (hn : ∀ m ∈ gin.geoms, matNonneg m) :
    s.props.tensile_load ≤ 0 ∧ 0 ≤ s.props.squash_load := by
  simp only [concreteSectionInit] at h
  split at h
  · cases h
  · obtain ⟨-, -, p1, -, hp⟩ := constructGross_ok E _ s h
    obtain ⟨hsq, htl, -, -, -⟩ := gross_plastic_spec _ p1 s.props hp
    have hcs : ∀ g ∈ (sortGeoms gin.geoms).1,
        0 ≤ g.area ∧ 0 ≤ g.alpha_1 ∧ 0 ≤ g.compressive_strength := by
      intro g hgm
      exact hn _ (sortGeoms_conc_mem gin.geoms g hgm)
    have hss : ∀ g ∈ (sortGeoms gin.geoms).2, 0 ≤ g.area ∧ 0 ≤ g.yield_strength := by
      intro g hgm
      exact hn _ (sortGeoms_steel_mem gin.geoms g hgm)
    constructor
    · rw [htl, neg_nonpos]
      exact specSteelYield_nonneg _ hss
    · rw [hsq]
      exact specSquashLoad_nonneg _ hcs hss

/-- Witness for C8: the sample construction succeeds, its regions are
nonnegative, and the stored loads have the claimed signs. -/
theorem claim8_witness :
    stateW.props.tensile_load ≤ 0 ∧ 0 ≤ stateW.props.squash_load :=
  claim8_load_signs extTriv ginW stateW (by with_unfolding_all rfl) (by
    intro m hm
    rcases (by simpa [ginW] using hm :
        m = Material.concrete cgW ∨ m = Material.steel sgW) with rfl | rfl <;>
      norm_num [matNonneg, cgW, sgW])

/-- C7 counterexample: a geometry with one Concrete and one Steel region
(both material kinds present) whose construction still raises — with the
division-by-zero error of a zero axial rigidity — so construction does not
fail exactly when a material kind is missing. -/
theorem claim7_counterexample :
    errOf (concreteSectionInit extTriv ginZ) = some Err.zeroDivision ∧
      (sortGeoms ginZ.geoms).1.length = 1 ∧
      (sortGeoms ginZ.geoms).2.length = 1 ∧
      Err.zeroDivision ≠ Err.missingMaterial :=
  ⟨by with_unfolding_all rfl, by with_unfolding_all rfl, by with_unfolding_all rfl, by decide⟩

/-- C7 as amended: construction raises the missing-material validation error
exactly when the geometry has no Concrete region or no Steel region; when at
least one of each is present that validation passes and construction proceeds
to the gross-property computation (which can itself raise). -/
theorem claim7_validation (E : Externals) (gin : GeomInput) :
    (concreteSectionInit E gin = Res.err Err.missingMaterial ↔
      (sortGeoms gin.geoms).1.length = 0 ∨ (sortGeoms gin.geoms).2.length = 0) ∧
    ((sortGeoms gin.geoms).1.length ≠ 0 → (sortGeoms gin.geoms).2.length ≠ 0 →
      concreteSectionInit E gin =
        constructGross E
          ⟨gin.points, gin.perimeter, (sortGeoms gin.geoms).1, (sortGeoms gin.geoms).2⟩) := by
  refine ⟨⟨fun h => ?_, fun h => ?_⟩, fun h1 h2 => ?_⟩
  · by_contra hno
    push_neg at hno
    simp only [concreteSectionInit] at h
    rw [if_neg (by tauto)] at h
    rcases constructGross_err E _ _ h with h' | h' <;> simp at h'
  · simp only [concreteSectionInit]
    rw [if_pos h]
  · simp only [concreteSectionInit]
    rw [if_neg (by tauto)]

/-- Witness for C7 (amended): on the sample input both sorted lists are
nonempty and construction equals the gross-property phase. -/
theorem claim7_witness :
    concreteSectionInit extTriv ginW =
      constructGross extTriv
        ⟨ginW.points, ginW.perimeter, (sortGeoms ginW.geoms).1, (sortGeoms ginW.geoms).2⟩ :=
  (claim7_validation extTriv ginW).2 (by decide) (by decide)

/-- The outer split loop only raises NameError. -/
theorem splitRegions_err (E : Externals) (us : ℚ) (pna : ℚ × ℚ) (d_n theta : ℚ) :
    ∀ (gs : List ConcGeom) (acc : List ℕ) (tg : Option (List ℕ)) (e : Err),
      splitRegions E us pna d_n theta gs acc tg = Res.err e → e = Err.nameError := by
  intro gs
  induction gs with
  | nil => intro acc tg e h; cases h
  | cons g rest ih =>
    intro acc tg e h
    simp only [splitRegions] at h
    split at h
    · cases h; rfl
    · exact ih _ _ _ h

/-- The plain-value section-action computation raises a neutral-axis error
exactly when the depth is outside (0, d_t]. -/
theorem sectionActionsVal_na_iff (E : Externals) (sec : Sect)
    (props : ConcreteProperties) (d_n theta : ℚ) :
    (∃ e, sectionActionsVal E sec props d_n theta = Res.err e ∧ e.isNeutralAxis = true) ↔
      d_n ≤ 0 ∨ (E.extremeFibre sec.points theta).2 < d_n := by
  unfold sectionActionsVal
  by_cases h1 : d_n ≤ 0
  · simp [h1, Err.isNeutralAxis]
  · by_cases h2 : (E.extremeFibre sec.points theta).2 < d_n
    · simp [h1, h2, Err.isNeutralAxis]
    · simp only [if_neg h1, if_neg h2]
      constructor
      · rintro ⟨e, he, hna⟩
        split at he
        · rename_i e' he'
          cases he
          rw [splitRegions_err E props.conc_ultimate_strain _ d_n theta sec.concs [] none e he'] at hna
          cases hna
        · cases he
      · intro hor
        rcases hor with h | h
        · exact absurd h h1
        · exact absurd h h2

/-- A raised exception passes unchanged from the value computation to the
stateful calculate_section_actions. -/
theorem calc_err_iff (E : Externals) (s : CState) (d_n theta : ℚ) (e : Err) :
    calculate_section_actions E s d_n theta = Res.err e ↔
      sectionActionsVal E s.sec s.props d_n theta = Res.err e := by
  unfold calculate_section_actions
  cases h : sectionActionsVal E s.sec s.props d_n theta <;> simp

/-- C3: calculate_section_actions raises a neutral-axis-validity error
exactly when d_n ≤ 0 or d_n > d_t, with d_t the extreme tensile fibre depth
for that theta; for every d_n with 0 < d_n ≤ d_t the validity check passes
and no neutral-axis error is raised. -/
theorem claim3_neutral_axis_guard (E : Externals) (s : CState) (d_n theta : ℚ) :
    (∃ e, calculate_section_actions E s d_n theta = Res.err e ∧ e.isNeutralAxis = true) ↔
      d_n ≤ 0 ∨ (E.extremeFibre s.sec.points theta).2 < d_n := by
  simp only [calc_err_iff]
  exact sectionActionsVal_na_iff E s.sec s.props d_n theta

/-- A successful calculate_section_actions call stores the returned tuple in
the side channel and changes nothing else; the tuple is the value
computation's result. -/
theorem calc_actions_ok (E : Externals) (s : CState) (d_n theta : ℚ)
    (r : ℚ × ℚ × ℚ × ℚ) (s1 : CState)
    (h : calculate_section_actions E s d_n theta = Res.ok (r, s1)) :
    s1 = { s with ultBendRes := some r } ∧
      sectionActionsVal E s.sec s.props d_n theta = Res.ok r := by
  unfold calculate_section_actions at h
  split at h
  · cases h
  · rename_i r' hr'
    cases h
    exact ⟨rfl, hr'⟩

/-- A successful convergence evaluation is a successful
calculate_section_actions call. -/
theorem nfc_ok (E : Externals) (s : CState) (d_n theta n v : ℚ) (s1 : CState)
    (h : normal_force_convergence E s d_n theta n = Res.ok (v, s1)) :
    ∃ r, calculate_section_actions E s d_n theta = Res.ok (r, s1) ∧ v = n - r.1 := by
  unfold normal_force_convergence at h
  split at h
  · cases h
  · rename_i r s' hr
    cases h
    exact ⟨r, hr, rfl⟩

/-- After a successful root-find run the state's section and gross properties
are unchanged and the side channel holds exactly the value computation's
result at the returned depth. -/
theorem brentqRun_ok (E : Externals) (theta n : ℚ) :
    ∀ (ds : List ℚ) (s : CState) (d d_n : ℚ) (s1 : CState),
      brentqRun E theta n s d ds = Res.ok (d_n, s1) →
      s1.sec = s.sec ∧ s1.props = s.props ∧
        ∃ r, s1.ultBendRes = some r ∧
          sectionActionsVal E s.sec s.props d_n theta = Res.ok r := by
  intro ds
  induction ds with
  | nil =>
    intro s d d_n s1 h
    simp only [brentqRun] at h
    split at h
    · cases h
    · cases h
      rename_i fstv hv2
      obtain ⟨r, hr, -⟩ := nfc_ok E s d theta n fstv s1 hv2
      obtain ⟨hs1, hval⟩ := calc_actions_ok E s d theta r s1 hr
      rw [hs1]
      exact ⟨rfl, rfl, r, rfl, hval⟩
  | cons d1 rest ih =>
    intro s d d_n s1 h
    simp only [brentqRun] at h
    split at h
    · cases h
    · rename_i s' hv
      obtain ⟨r, hr, -⟩ := nfc_ok E s d theta n _ s' hv
      obtain ⟨hs', hval⟩ := calc_actions_ok E s d theta r s' hr
      obtain ⟨h1, h2, rr, h3, h4⟩ := ih s' d1 d_n s1 h
      subst hs'
      exact ⟨h1, h2, rr, h3, h4⟩

/-- After a successful ultimate_bending_capacity call the section and gross
properties are unchanged and the returned (n, mx, my, mv) is the value
computation's result at the returned depth. -/
theorem ubc_ok (E : Externals) (s : CState) (theta n : ℚ) (sched : ℚ × List ℚ)
    (out : ℚ × ℚ × ℚ × ℚ × ℚ) (s1 : CState)
    (h : ultimate_bending_capacity E s theta n sched = Res.ok (out, s1)) :
    s1.sec = s.sec ∧ s1.props = s.props ∧
      sectionActionsVal E s.sec s.props out.2.2.2.2 theta =
        Res.ok (out.1, out.2.1, out.2.2.1, out.2.2.2.1) := by
  simp only [ultimate_bending_capacity] at h
  split at h
  · cases h
  · rename_i d_n s' hbr
    split at h
    · rename_i r hr
      cases h
      obtain ⟨h1, h2, rr, h3, h4⟩ :=
        brentqRun_ok E theta n sched.2 { s with ultBendRes := none } sched.1 d_n s1 hbr
      have hrr : rr = r := by
        have := h3.symm.trans hr
        exact Option.some_injective _ this.symm |>.symm
      subst hrr
      exact ⟨h1, h2, h4⟩
    · cases h

/-- C1: for every angle, target force and evaluation schedule, a successful
ultimate_bending_capacity call returns a tuple (n, mx, my, mv, d_n) whose
first four components are exactly calculate_section_actions evaluated at the
returned depth d_n — the side channel guarantees the returned actions are one
single integrator evaluation at d_n. -/
theorem claim1_ubc_consistency (E : Externals) (s : CState) (theta n : ℚ)
    (sched : ℚ × List ℚ) (n' mx my mv d_n : ℚ) (s1 : CState)
    (h : ultimate_bending_capacity E s theta n sched = Res.ok ((n', mx, my, mv, d_n), s1)) :
    sectionActionsVal E s.sec s.props d_n theta = Res.ok (n', mx, my, mv) :=
  (ubc_ok E s theta n sched (n', mx, my, mv, d_n) s1 h).2.2

/-- Witness for C1: on the sample state with a one-point schedule the solver
returns depth 1 and the zero action tuple, which is the value computation at
depth 1. -/
theorem claim1_witness :
    sectionActionsVal extTriv stateW.sec stateW.props 1 0 = Res.ok (0, 0, 0, 0) :=
  claim1_ubc_consistency extTriv stateW 0 0 (1, []) 0 0 0 0 1
    ⟨sectW, propsW, some (0, 0, 0, 0)⟩ (by with_unfolding_all rfl)

/-- strains[1:-1] is empty for a profile with fewer than three unique
strains. -/
theorem interiorStrains_eq_nil (l : List ℚ) (h : l.length < 3) :
    interiorStrains l = [] := by
  match l with
  | [] => rfl
  | [a] => rfl
  | [a, b] => rfl
  | a :: b :: c :: r => simp at h; omega

/-- strains[1:-1] is nonempty for a profile with at least three unique
strains. -/
theorem interiorStrains_ne_nil (l : List ℚ) (h : 3 ≤ l.length) :
    interiorStrains l ≠ [] := by
  have hlen : (interiorStrains l).length = l.length - 1 - 1 := by
    simp [interiorStrains]
  intro hnil
  rw [hnil] at hlen
  simp only [List.length_nil] at hlen
  omega

/-- The inner split loop ends with the top_geoms variable assigned whenever
it runs at least once. -/
theorem splitInner_some (E : Externals) (us : ℚ) (pna : ℚ × ℚ) (d_n theta : ℚ) :
    ∀ (strains : List ℚ) (cur acc : List ℕ) (tg : Option (List ℕ)), strains ≠ [] →
      ∃ t, (splitInner E us pna d_n theta strains cur acc tg).2 = some t := by
  intro strains
  induction strains with
  | nil => intro cur acc tg h; exact absurd rfl h
  | cons a rest ih =>
    intro cur acc tg _
    simp only [splitInner]
    cases rest with
    | nil => exact ⟨_, rfl⟩
    | cons b r2 => exact ih _ _ _ (by simp)

/-- The inner split loop only appends to its accumulator. -/
theorem splitInner_acc (E : Externals) (us : ℚ) (pna : ℚ × ℚ) (d_n theta : ℚ) :
    ∀ (strains : List ℚ) (cur acc : List ℕ) (tg : Option (List ℕ)),
      ∃ extra, (splitInner E us pna d_n theta strains cur acc tg).1 = acc ++ extra := by
  intro strains
  induction strains with
  | nil => intro cur acc tg; exact ⟨[], by simp [splitInner]⟩
  | cons a rest ih =>
    intro cur acc tg
    simp only [splitInner]
    obtain ⟨extra, hx⟩ :=
      ih (E.splitSection cur (E.pointFromStrain a pna d_n theta us) theta).1
        (acc ++ (E.splitSection cur (E.pointFromStrain a pna d_n theta us) theta).2)
        (some (E.splitSection cur (E.pointFromStrain a pna d_n theta us) theta).1)
    exact ⟨(E.splitSection cur (E.pointFromStrain a pna d_n theta us) theta).2 ++ extra,
      by rw [hx, List.append_assoc]⟩

/-- C6: when a concrete region's stress-strain profile has fewer than three
unique strains the split loop body never runs, yet the final append still
reads top_geoms: (a) if the first region of the call is such, the variable is
unassigned and the call raises NameError instead of returning section
actions; (b) if a later region is such, the previous region's final top geoms
are appended a second time, so the integration domain is wrong. -/
theorem claim6_split_loop_bug :
    (∀ (E : Externals) (s : CState) (d_n theta : ℚ) (g : ConcGeom) (rest : List ConcGeom),
      s.sec.concs = g :: rest → g.uniqueStrains.length < 3 →
      0 < d_n → d_n ≤ (E.extremeFibre s.sec.points theta).2 →
      calculate_section_actions E s d_n theta = Res.err Err.nameError) ∧
    (∀ (E : Externals) (us : ℚ) (pna : ℚ × ℚ) (d_n theta : ℚ) (g1 g2 : ConcGeom),
      3 ≤ g1.uniqueStrains.length → g2.uniqueStrains.length < 3 →
      ∃ pre t, splitRegions E us pna d_n theta [g1] [] none = Res.ok (pre ++ t) ∧
        splitRegions E us pna d_n theta [g1, g2] [] none = Res.ok (pre ++ t ++ t)) := by
  constructor
  · intro E s d_n theta g rest hconcs h2 h3 h4
    have hval : sectionActionsVal E s.sec s.props d_n theta = Res.err Err.nameError := by
      simp only [sectionActionsVal]
      rw [if_neg (not_le.mpr h3), if_neg (not_lt.mpr h4), hconcs]
      simp [splitRegions, interiorStrains_eq_nil _ h2, splitInner]
    simp [calculate_section_actions, hval]
  · intro E us pna d_n theta g1 g2 h1 h2
    obtain ⟨t, ht⟩ := splitInner_some E us pna d_n theta (interiorStrains g1.uniqueStrains)
      g1.pieces [] none (interiorStrains_ne_nil _ h1)
    obtain ⟨pre, hpre⟩ := splitInner_acc E us pna d_n theta (interiorStrains g1.uniqueStrains)
      g1.pieces [] none
    simp only [List.nil_append] at hpre
    refine ⟨pre, t, ?_, ?_⟩
    · simp [splitRegions, ht, hpre]
    · simp [splitRegions, ht, hpre, interiorStrains_eq_nil _ h2, splitInner]

/-- Witness for C6: on concrete data, a first region with a two-strain
profile raises NameError, and a two-strain second region makes the first
region's top geoms appear twice in the split list. -/
theorem claim6_witness :
    calculate_section_actions extTriv ⟨sectB, propsW, none⟩ 1 0 = Res.err Err.nameError ∧
      ∃ pre t, splitRegions extTriv 2 (0, 0) 1 0 [cgW] [] none = Res.ok (pre ++ t) ∧
        splitRegions extTriv 2 (0, 0) 1 0 [cgW, cgB] [] none = Res.ok (pre ++ t ++ t) :=
  ⟨claim6_split_loop_bug.1 extTriv ⟨sectB, propsW, none⟩ 1 0 cgB []
      (by with_unfolding_all rfl) (by norm_num [cgB]) (by norm_num) (by simp [extTriv]),
    claim6_split_loop_bug.2 extTriv 2 (0, 0) 1 0 cgW cgB
      (by norm_num [cgW]) (by norm_num [cgB])⟩

/-- linspace returns exactly num samples. -/
theorem linspace_length (a b : ℚ) (n : ℕ) : (linspace a b n).length = n := by
  unfold linspace
  split
  · rename_i h; simp [h]
  · split
    · rename_i h; simp [h]
    · rw [List.length_map, List.length_range]


/-- Pointwise description of a successful curveVals run: one scaled
section-action sample per depth. -/
theorem curveVals_ok (E : Externals) (sec : Sect) (props : ConcreteProperties)
    (theta ns ms : ℚ) :
    ∀ (ds : List ℚ) (l : List (ℚ × ℚ)),
      curveVals E sec props theta ns ms ds = Res.ok l →
      l.length = ds.length ∧
        ∀ i, i < ds.length → ∃ d a,
          ds[i]? = some d ∧ sectionActionsVal E sec props d theta = Res.ok a ∧
            l[i]? = some (a.1 * ns, a.2.2.2 * ms) := by
  intro ds
  induction ds with
  | nil =>
    intro l h
    simp only [curveVals] at h
    cases h
    exact ⟨rfl, fun i hi => absurd hi (by simp)⟩
  | cons d rest ih =>
    intro l h
    simp only [curveVals] at h
    split at h
    · cases h
    · rename_i a ha
      split at h
      · cases h
      · rename_i l0 hl0
        cases h
        obtain ⟨hlen, hpt⟩ := ih l0 hl0
        refine ⟨by simp [hlen], ?_⟩
        intro i hi
        cases i with
        | zero => exact ⟨d, a, by simp, ha, by simp⟩
        | succ j =>
          obtain ⟨d', a', h1, h2, h3⟩ := hpt j (by simpa using hi)
          exact ⟨d', a', by simpa using h1, h2, by simpa using h3⟩

/-- A successful sampling loop leaves the section and gross properties
unchanged and appends exactly the curveVals points to the two curves. -/
theorem sampleCurve_ok (E : Externals) (theta ns ms : ℚ) :
    ∀ (ds : List ℚ) (s : CState) (nC mC : List ℚ) (out : List ℚ × List ℚ) (s2 : CState),
      sampleCurve E theta ns ms s ds nC mC = Res.ok (out, s2) →
      s2.sec = s.sec ∧ s2.props = s.props ∧
        ∃ l, curveVals E s.sec s.props theta ns ms ds = Res.ok l ∧
          out.1 = nC ++ l.map Prod.fst ∧ out.2 = mC ++ l.map Prod.snd := by
  intro ds
  induction ds with
  | nil =>
    intro s nC mC out s2 h
    simp only [sampleCurve] at h
    cases h
    exact ⟨rfl, rfl, [], rfl, by simp, by simp⟩
  | cons d rest ih =>
    intro s nC mC out s2 h
    simp only [sampleCurve] at h
    split at h
    · cases h
    · rename_i r s1 hr
      obtain ⟨hs1, hval⟩ := calc_actions_ok E s d theta r s1 hr
      obtain ⟨a1, a2, l, hl, ho1, ho2⟩ := ih s1 _ _ out s2 h
      subst hs1
      refine ⟨a1, a2, (r.1 * ns, r.2.2.2 * ms) :: l, ?_, ?_, ?_⟩
      · simp [curveVals, hval, hl]
      · rw [ho1]; simp
      · rw [ho2]; simp

/-- A successful moment_interaction_diagram run: section and properties
unchanged, and the curves are the scaled squash load, the curveVals points
along the linspace from d_t to the pure-bending depth, and the scaled tensile
load. -/
theorem mid_ok (E : Externals) (s : CState) (theta : ℚ) (np : ℕ) (ns ms : ℚ)
    (sched : ℚ × List ℚ) (nC mC : List ℚ) (s2 : CState)
    (h : moment_interaction_diagram E s theta np ns ms sched = Res.ok ((nC, mC), s2)) :
    s2.sec = s.sec ∧ s2.props = s.props ∧
      ∃ out1 s1 l,
        ultimate_bending_capacity E s theta 0 sched = Res.ok (out1, s1) ∧
          curveVals E s.sec s.props theta ns ms
            (linspace (E.extremeFibre s.sec.points theta).2 out1.2.2.2.2 np) = Res.ok l ∧
          nC = s.props.squash_load * ns :: (l.map Prod.fst ++ [s.props.tensile_load * ns]) ∧
          mC = 0 :: (l.map Prod.snd ++ [0]) := by
  simp only [moment_interaction_diagram] at h
  split at h
  · cases h
  · rename_i out1 s1 hubc
    split at h
    · cases h
    · rename_i nC' mC' s2x hsc
      cases h
      obtain ⟨hsec1, hprops1, -⟩ := ubc_ok E s theta 0 sched out1 s1 hubc
      obtain ⟨hsec2, hprops2, l, hl, ho1, ho2⟩ :=
        sampleCurve_ok E theta ns ms _ s1 _ _ (nC', mC') s2 hsc
      dsimp only at ho1 ho2
      rw [hsec1, hprops1] at hl
      refine ⟨hsec2.trans hsec1, hprops2.trans hprops1, out1, s1, l, hubc, hl, ?_, ?_⟩
      · rw [hprops2.trans hprops1, ho1]
        simp
      · rw [ho2]
        simp

/-- C9: the gross_properties record is immutable after construction — every
successful calculate_section_actions, ultimate_bending_capacity and
moment_interaction_diagram call leaves every field of the stored
gross-properties record unchanged. -/
theorem claim9_props_immutable (E : Externals) (s : CState) :
    (∀ d_n theta r s1, calculate_section_actions E s d_n theta = Res.ok (r, s1) →
      s1.props = s.props) ∧
    (∀ theta n sched out s1, ultimate_bending_capacity E s theta n sched = Res.ok (out, s1) →
      s1.props = s.props) ∧
    (∀ theta np ns ms sched out s1,
      moment_interaction_diagram E s theta np ns ms sched = Res.ok (out, s1) →
      s1.props = s.props) := by
  refine ⟨?_, ?_, ?_⟩
  · intro d_n theta r s1 h
    obtain ⟨h1, -⟩ := calc_actions_ok E s d_n theta r s1 h
    rw [h1]
  · intro theta n sched out s1 h
    exact (ubc_ok E s theta n sched out s1 h).2.1
  · intro theta np ns ms sched out s1 h
    exact (mid_ok E s theta np ns ms sched out.1 out.2 s1 h).2.1

/-- Witness for C9: a full moment-interaction run on the sample state ends
with the gross properties it started with. -/
theorem claim9_witness :
    (CState.mk sectW propsW (some (0, 0, 0, 0))).props = stateW.props :=
  (claim9_props_immutable extTriv stateW).2.2 0 1 (1/1000) (1/1000000) (1, [])
    ([7/1000, 0, -(5/1000)], [0, 0, 0]) ⟨sectW, propsW, some (0, 0, 0, 0)⟩
    (by with_unfolding_all rfl)

/-- C2 counterexample: on a state whose squash load is 7 and with the
default scales n_scale = 1e-3, m_scale = 1e-6, the first returned point is
7/1000, not the squash load 7 — the claim's "first point is (squash_load, 0)
exactly" fails because the returned values are scaled. -/
theorem claim2_counterexample :
    moment_interaction_diagram extTriv stateW 0 1 (1/1000) (1/1000000) (1, []) =
      Res.ok (([7/1000, 0, -(5/1000)], [0, 0, 0]), ⟨sectW, propsW, some (0, 0, 0, 0)⟩) ∧
      stateW.props.squash_load = 7 ∧ ((7 : ℚ)/1000) ≠ 7 :=
  ⟨by with_unfolding_all rfl, by with_unfolding_all rfl, by norm_num⟩

/-- C2 as amended: a successful moment_interaction_diagram call returns
curves of n_points + 2 points whose first point is
(squash_load * n_scale, 0), whose last point is (tensile_load * n_scale, 0),
and whose n_points interior points are direct calculate_section_actions
evaluations (no root-find) at depths evenly spaced from d_t to the
pure-bending depth solved by ultimate_bending_capacity with target n = 0,
scaled by n_scale and m_scale. -/
theorem claim2_mid_curve (E : Externals) (s : CState) (theta : ℚ) (np : ℕ)
    (ns ms : ℚ) (sched : ℚ × List ℚ) (nC mC : List ℚ) (s2 : CState)
    (h : moment_interaction_diagram E s theta np ns ms sched = Res.ok ((nC, mC), s2)) :
    nC.length = np + 2 ∧ mC.length = np + 2 ∧
      nC.head? = some (s.props.squash_load * ns) ∧ mC.head? = some 0 ∧
      nC.getLast? = some (s.props.tensile_load * ns) ∧ mC.getLast? = some 0 ∧
      ∃ out1 s1, ultimate_bending_capacity E s theta 0 sched = Res.ok (out1, s1) ∧
        ∀ i, i < np → ∃ d a,
          (linspace (E.extremeFibre s.sec.points theta).2 out1.2.2.2.2 np)[i]? = some d ∧
            sectionActionsVal E s.sec s.props d theta = Res.ok a ∧
            nC[i + 1]? = some (a.1 * ns) ∧ mC[i + 1]? = some (a.2.2.2 * ms) := by
  obtain ⟨-, -, out1, s1, l, hubc, hl, hn, hm⟩ :=
    mid_ok E s theta np ns ms sched nC mC s2 h
  obtain ⟨hlen, hpt⟩ := curveVals_ok E s.sec s.props theta ns ms _ l hl
  rw [linspace_length] at hlen
  subst hn
  subst hm
  refine ⟨?_, ?_, rfl, rfl, ?_, ?_, out1, s1, hubc, ?_⟩
  · simp only [List.length_cons, List.length_append, List.length_map, List.length_nil,
      List.length_singleton, hlen]
  · simp only [List.length_cons, List.length_append, List.length_map, List.length_nil,
      List.length_singleton, hlen]
  · rw [show s.props.squash_load * ns :: (l.map Prod.fst ++ [s.props.tensile_load * ns]) =
        (s.props.squash_load * ns :: l.map Prod.fst) ++ [s.props.tensile_load * ns] by simp,
      List.getLast?_concat]
  · rw [show (0 : ℚ) :: (l.map Prod.snd ++ [0]) = ((0 : ℚ) :: l.map Prod.snd) ++ [0] by simp,
      List.getLast?_concat]
  · intro i hi
    obtain ⟨d, a, h1, h2, h3⟩ := hpt i (by rw [linspace_length]; exact hi)
    refine ⟨d, a, h1, h2, ?_, ?_⟩
    · rw [List.getElem?_cons_succ, List.getElem?_append_left (by simp [hlen, hi])]
      simp [List.getElem?_map, h3]
    · rw [List.getElem?_cons_succ, List.getElem?_append_left (by simp [hlen, hi])]
      simp [List.getElem?_map, h3]

/-- Witness for C2 (amended): the sample run with n_points = 1 and the
default scales produces the described curves. -/
theorem claim2_witness :
    ([7/1000, 0, -(5/1000)] : List ℚ).length = 1 + 2 ∧
      ([0, 0, 0] : List ℚ).length = 1 + 2 ∧
      ([7/1000, 0, -(5/1000)] : List ℚ).head? = some (stateW.props.squash_load * (1/1000)) ∧
      ([0, 0, 0] : List ℚ).head? = some 0 ∧
      ([7/1000, 0, -(5/1000)] : List ℚ).getLast? = some (stateW.props.tensile_load * (1/1000)) ∧
      ([0, 0, 0] : List ℚ).getLast? = some 0 ∧
      ∃ out1 s1, ultimate_bending_capacity extTriv stateW 0 0 (1, []) = Res.ok (out1, s1) ∧
        ∀ i, i < 1 → ∃ d a,
          (linspace (extTriv.extremeFibre stateW.sec.points 0).2 out1.2.2.2.2 1)[i]? = some d ∧
            sectionActionsVal extTriv stateW.sec stateW.props d 0 = Res.ok a ∧
            ([7/1000, 0, -(5/1000)] : List ℚ)[i + 1]? = some (a.1 * (1/1000)) ∧
            ([0, 0, 0] : List ℚ)[i + 1]? = some (a.2.2.2 * (1/1000000)) :=
  claim2_mid_curve extTriv stateW 0 1 (1/1000) (1/1000000) (1, [])
    [7/1000, 0, -(5/1000)] [0, 0, 0] ⟨sectW, propsW, some (0, 0, 0, 0)⟩
    (by with_unfolding_all rfl)

end ConcreteProps

namespace ACI318

/-- C10: create_concrete_material never returns a Concrete material — for
every input it reaches the `raise concrete` statement applied to the
constructed Concrete object, so every call raises and the documented return
value is unreachable. -/
theorem claim10_create_always_raises (rpow : ℚ → ℚ → ℚ) (fpc eps_cu wc : ℚ) :
    ∃ c : ConcreteMat,
      create_concrete_material rpow fpc eps_cu wc =
        ConcreteProps.Res.err (ACIErr.raisedNonException c) :=
  ⟨_, rfl⟩

end ACI318
